import Mathlib

/-!
Verification development for the PyBlender agent repository.

The Python sources are shallowly embedded as executable Lean definitions:

* `src/agent/llm.py` — the model gateway (`LLMClient`): `send_message`,
  `send_tool_result`, `_sanitize_schema`, for the gemini and openai branches.
* `src/main.py` — the orchestration core: `BlenderMCPClient._send_request`,
  `_waiting_response`, `call_tool`, the per-turn tool loop of `main`, the
  interactive read-eval loop, the retrieval aggregation and the
  `GenerationLogger`.

Fallible Python code is embedded with `Except PyErr`; values whose runtime
shape matters (tuples vs. strings vs. `None`) are embedded as the inductive
`RetVal`.
-/

namespace PyBlender

/-- Kinds of Python exceptions that the embedded code can raise. -/
inductive PyErr where
  | typeError
  | keyError
  | attributeError
  | runtimeError
  | jsonDecodeError
  | unboundLocal
deriving DecidableEq, Repr

/-- A structured tool call as normalized by `LLMClient`
(`{"name": ..., "args": ..., "id": ...}` dict in the Python source). -/
structure FCall where
  fname : String
  fargs : List (String × String)
  callId : Option String
deriving DecidableEq, Repr

/-- The runtime shape of a value returned by a gateway method: a 2-tuple
`(text, call)`, a bare string, or Python `None`. -/
inductive RetVal where
  | pair (text : String) (call : Option FCall)
  | strVal (s : String)
  | noneVal
deriving DecidableEq, Repr

/-- Python tuple-unpacking `a, b = v` succeeds on a 2-tuple, on a string of
length exactly 2 (a string is a sequence of 1-character strings), and fails
with TypeError/ValueError otherwise. -/
def unpack2Ok : RetVal → Bool
  | RetVal.pair _ _ => true
  | RetVal.strVal s => s.length == 2
  | RetVal.noneVal => false

/-- One part of a gemini response: either a function-call part or a text
part (the provider SDK's `response.parts` elements). -/
inductive GPart where
  | functionCall (name : String) (args : List (String × String))
  | textPart (t : String)
deriving DecidableEq, Repr

/-- `part.function_call` truthiness test plus extraction, as used in
`llm.py` (`if part.function_call: fc = {"name": ..., "args": dict(...)}`). -/
def GPart.functionCallOf : GPart → Option FCall
  | GPart.functionCall n a => some ⟨n, a, none⟩
  | GPart.textPart _ => none

/-- `part.text` as read by `llm.py`: the text of a text part, and the empty
(falsy) string for a function-call part. -/
def GPart.textOf : GPart → String
  | GPart.functionCall _ _ => ""
  | GPart.textPart t => t

/-- A gemini chat response as observed through the two accessors `llm.py`
uses. Either accessor can raise inside the provider SDK (for example on a
candidate-less, safety-blocked response), which is what the `try`/`except`
blocks in `llm.py` are guarding against; an `Except.error` models that. -/
structure GeminiResponse where
  partsRes : Except Unit (List GPart)
  textRes : Except Unit String
deriving Repr

/-- The scan `for part in response.parts: if part.function_call: fc = ...`
from `llm.py`: each function-call part overwrites `fc`, so the fold keeps
the latest one seen. -/
def scanForCall (parts : List GPart) : Option FCall :=
  parts.foldl (fun acc p => match p.functionCallOf with
    | some c => some c
    | none => acc) none

/-- The comprehension `[p.text for p in response.parts if p.text]` joined
with newlines, from `llm.py` line 91. -/
def textsOf (parts : List GPart) : String :=
  String.intercalate "\n" (parts.filterMap (fun p =>
    if p.textOf ≠ "" then some p.textOf else none))

/-- `LLMClient.send_message`, gemini branch (`llm.py` lines 71-98): scans
parts for a function call, extracts text, and always returns the 2-tuple
`(text_response, fc)`; every extraction exception is caught by the
`except Exception: pass` and the initializers `fc = None`,
`text_response = ""` stand in. -/
def send_message_gemini (resp : GeminiResponse) : RetVal :=
  match resp.partsRes with
  | Except.error _ => RetVal.pair "" none
  | Except.ok parts =>
    let fc := scanForCall parts
    match fc with
    | none =>
      match resp.textRes with
      | Except.ok t => RetVal.pair t none
      | Except.error _ => RetVal.pair "" none
    | some c => RetVal.pair (textsOf parts) (some c)

/-- One tool call in an openai chat-completion message
(`msg.tool_calls[i]`), with its mandatory correlation id and its function
name and (already decoded) arguments. -/
structure OACall where
  oid : String
  oname : String
  oargs : List (String × String)
deriving DecidableEq, Repr

/-- The openai assistant message as read by `llm.py`: `msg.content` (which
may be `None`) and `msg.tool_calls` (empty list standing for `None`). -/
structure OAMessage where
  content : Option String
  toolCalls : List OACall
deriving DecidableEq, Repr

/-- `LLMClient.send_message`, openai branch (`llm.py` lines 100-129):
`text_response = msg.content or ""`; if `msg.tool_calls` is non-empty the
first element is taken (`msg.tool_calls[0]`) and the rest are dropped;
always returns the 2-tuple. -/
def send_message_openai (msg : OAMessage) : RetVal :=
  let text := match msg.content with
    | some s => s
    | none => ""
  match msg.toolCalls with
  | [] => RetVal.pair text none
  | t :: _ => RetVal.pair text (some ⟨t.oname, t.oargs, some t.oid⟩)

/-- The text extraction of `send_tool_result`, gemini branch (`llm.py`
lines 152-165): non-function parts contribute their non-empty text,
function-call parts set `fc` (which the function then never returns). -/
def toolResultTexts (parts : List GPart) : String :=
  String.intercalate "\n" (parts.filterMap (fun p =>
    match p with
    | GPart.functionCall _ _ => none
    | GPart.textPart t => if t ≠ "" then some t else none))

/-- `LLMClient.send_tool_result`, gemini branch (`llm.py` lines 135-174).
On a successful parts scan it executes `return text_response` — a bare
string, not a `(text, call)` pair, and the computed `fc` is discarded. If
the parts scan raises, the fallback tries `response.text`; if that raises
too, the trailing `return text_response` reads a never-assigned local and
raises UnboundLocalError. -/
def send_tool_result_gemini (resp : GeminiResponse) : Except PyErr RetVal :=
  match resp.partsRes with
  | Except.ok parts => Except.ok (RetVal.strVal (toolResultTexts parts))
  | Except.error _ =>
    match resp.textRes with
    | Except.ok t => Except.ok (RetVal.strVal t)
    | Except.error _ => Except.error PyErr.unboundLocal

/-- `LLMClient.send_tool_result`, openai branch (`llm.py` lines 176-195):
executes `return msg.content`, which is a bare string or `None` — again not
a `(text, call)` pair. -/
def send_tool_result_openai (msg : OAMessage) : RetVal :=
  match msg.content with
  | some s => RetVal.strVal s
  | none => RetVal.noneVal

/-! Schema values and `_sanitize_schema` (`llm.py` lines 49-64). -/

mutual
/-- A Python value as traversed by `_sanitize_schema`: strings, dicts,
lists, and anything else (numbers, booleans, `None`), which the recursion
leaves untouched. -/
inductive SchemaVal where
  | strVal (s : String)
  | dictVal (fields : SchemaFields)
  | listVal (elems : SchemaList)
  | otherVal
/-- The key-value pairs of a dict (Python dict keys are unique). -/
inductive SchemaFields where
  | nil
  | cons (key : String) (val : SchemaVal) (rest : SchemaFields)
/-- The elements of a list. -/
inductive SchemaList where
  | nil
  | cons (val : SchemaVal) (rest : SchemaList)
end

mutual
/-- `recurse(d)` from `_sanitize_schema`: on a dict, lower-case the string
under the key "type" (if present and a string), then recurse into every
value; on a list, recurse into every element; leave everything else. The
deep copy at the top of `_sanitize_schema` makes this a pure function. -/
def sanitizeVal : SchemaVal → SchemaVal
  | SchemaVal.strVal s => SchemaVal.strVal s
  | SchemaVal.dictVal fields => SchemaVal.dictVal (sanitizeFields fields)
  | SchemaVal.listVal elems => SchemaVal.listVal (sanitizeList elems)
  | SchemaVal.otherVal => SchemaVal.otherVal
/-- The effect of `recurse` on one dict entry: the string under the key
"type" is lower-cased (`d["type"] = d["type"].lower()`), then the loop
`for v in d.values(): recurse(v)` recurses into the value — recursing into
the freshly lowered string is a no-op, so lowering composed with recursion
is this. -/
def sanitizeEntry (k : String) (v : SchemaVal) : SchemaVal :=
  if k = "type" then
    match v with
    | SchemaVal.strVal s => SchemaVal.strVal s.toLower
    | v2 => sanitizeVal v2
  else sanitizeVal v
/-- Apply `sanitizeEntry` to each key-value pair of the dict. -/
def sanitizeFields : SchemaFields → SchemaFields
  | SchemaFields.nil => SchemaFields.nil
  | SchemaFields.cons k v rest =>
    SchemaFields.cons k (sanitizeEntry k v) (sanitizeFields rest)
/-- Recurse into each list element. -/
def sanitizeList : SchemaList → SchemaList
  | SchemaList.nil => SchemaList.nil
  | SchemaList.cons v rest => SchemaList.cons (sanitizeVal v) (sanitizeList rest)
end

/-- `LLMClient._sanitize_schema`: deep-copies the schema and applies the
recursion, returning the new value. -/
def sanitize_schema (schema : SchemaVal) : SchemaVal :=
  sanitizeVal schema

theorem char_toLower_toLower (c : Char) : c.toLower.toLower = c.toLower := by
  unfold Char.toLower
  by_cases h : c.toNat ≥ 65 ∧ c.toNat ≤ 90
  · rw [if_pos h]
    have hv : (c.toNat + 32).isValidChar := by
      left
      have := h.2
      omega
    have ht : (Char.ofNat (c.toNat + 32)).toNat = c.toNat + 32 := by
      rw [Char.ofNat, dif_pos hv]
      rfl
    rw [ht]
    have hno : ¬ (c.toNat + 32 ≥ 65 ∧ c.toNat + 32 ≤ 90) := by omega
    rw [if_neg hno]
  · rw [if_neg h, if_neg h]

theorem string_toLower_toLower (s : String) : s.toLower.toLower = s.toLower := by
  simp only [String.toLower, String.map_eq, List.map_map]
  refine congrArg String.mk (List.map_congr_left ?_)
  intro c _
  exact char_toLower_toLower c

theorem sanitizeEntry_idem (k : String) (v : SchemaVal)
    (hval : sanitizeVal (sanitizeVal v) = sanitizeVal v) :
    sanitizeEntry k (sanitizeEntry k v) = sanitizeEntry k v := by
  by_cases hk : k = "type"
  · subst hk
    cases v with
    | strVal s => simp [sanitizeEntry, string_toLower_toLower]
    | dictVal f2 =>
      simp only [sanitizeVal] at hval
      simp [sanitizeEntry, sanitizeVal, hval]
    | listVal l2 =>
      simp only [sanitizeVal] at hval
      simp [sanitizeEntry, sanitizeVal, hval]
    | otherVal => simp [sanitizeEntry, sanitizeVal]
  · unfold sanitizeEntry
    rw [if_neg hk, if_neg hk]
    unfold sanitizeEntry
    rw [if_neg hk]
    exact hval

theorem sanitize_idem_aux :
    ∀ n : Nat,
      (∀ v : SchemaVal, sizeOf v ≤ n → sanitizeVal (sanitizeVal v) = sanitizeVal v) ∧
      (∀ f : SchemaFields, sizeOf f ≤ n →
        sanitizeFields (sanitizeFields f) = sanitizeFields f) ∧
      (∀ l : SchemaList, sizeOf l ≤ n →
        sanitizeList (sanitizeList l) = sanitizeList l) := by
  intro n
  induction n with
  | zero =>
    refine ⟨?_, ?_, ?_⟩
    · intro v hv
      cases v <;> simp_all
    · intro f hf
      cases f <;> simp_all
    · intro l hl
      cases l <;> simp_all
  | succ n ih =>
    refine ⟨?_, ?_, ?_⟩
    · intro v hv
      cases v with
      | strVal s => simp [sanitizeVal]
      | dictVal f =>
        have hs : sizeOf f ≤ n := by simp at hv; omega
        simp only [sanitizeVal]
        rw [ih.2.1 f hs]
      | listVal l =>
        have hs : sizeOf l ≤ n := by simp at hv; omega
        simp only [sanitizeVal]
        rw [ih.2.2 l hs]
      | otherVal => simp [sanitizeVal]
    · intro f hf
      cases f with
      | nil => simp [sanitizeFields]
      | cons k v rest =>
        have hv : sizeOf v ≤ n := by simp at hf; omega
        have hr : sizeOf rest ≤ n := by simp at hf; omega
        simp only [sanitizeFields]
        rw [sanitizeEntry_idem k v (ih.1 v hv), ih.2.1 rest hr]
    · intro l hl
      cases l with
      | nil => simp [sanitizeList]
      | cons v rest =>
        have hv : sizeOf v ≤ n := by simp at hl; omega
        have hr : sizeOf rest ≤ n := by simp at hl; omega
        simp only [sanitizeList]
        rw [ih.1 v hv, ih.2.2 rest hr]

/-! The JSON wire protocol of `BlenderMCPClient` (`src/main.py` lines
19-106): request-id allocation, response matching, and tool-call result
parsing. -/

/-- A JSON value as produced by `json.loads`. Object fields are kept in
textual order; `json.loads` gives duplicate keys last-wins semantics, which
`objLookup` below reproduces. -/
inductive JVal where
  | obj (fields : List (String × JVal))
  | arr (elems : List JVal)
  | str (s : String)
  | num (n : Int)
  | bool (b : Bool)
  | null

/-- Python dict lookup on a dict built by `json.loads`: the last binding of
a duplicated key wins. -/
def objLookup (fields : List (String × JVal)) (key : String) : Option JVal :=
  (fields.filter (fun kv => kv.1 = key)).getLast?.map (fun kv => kv.2)

/-- Whether the string `key` occurs as a substring of `s` (Python
`key in s` for strings). -/
def strContains (s key : String) : Bool :=
  s.toList.tails.any (fun t => key.toList.isPrefixOf t)

/-- Python `key in msg` for a `json.loads` value: key membership for a
dict, element membership for a list, substring test for a string, and a
TypeError for numbers, booleans and `None` (not iterable). -/
def pyContains (key : String) : JVal → Except PyErr Bool
  | JVal.obj fields => Except.ok (fields.any (fun kv => kv.1 = key))
  | JVal.arr elems => Except.ok (elems.any (fun e =>
      match e with
      | JVal.str s => s = key
      | _ => false))
  | JVal.str s => Except.ok (strContains s key)
  | JVal.num _ => Except.error PyErr.typeError
  | JVal.bool _ => Except.error PyErr.typeError
  | JVal.null => Except.error PyErr.typeError

/-- Python `msg[key]` for a `json.loads` value: dict lookup (KeyError when
absent), and a TypeError for every other shape when indexed by a string. -/
def pyIndex (key : String) : JVal → Except PyErr JVal
  | JVal.obj fields =>
    match objLookup fields key with
    | some v => Except.ok v
    | none => Except.error PyErr.keyError
  | _ => Except.error PyErr.typeError

/-- Python `==` between a `json.loads` value and a Python int, as in
`msg["id"] == self.request_id`: true for an equal number and — because
`bool` is an int subclass in Python — for `True == 1` and `False == 0`;
false for every other shape. -/
def pyEqInt (v : JVal) (i : Int) : Bool :=
  match v with
  | JVal.num n => n = i
  | JVal.bool b => (if b then (1 : Int) else 0) = i
  | _ => false

/-- `BlenderMCPClient._send_request` increments `self.request_id` and
returns the new value; starting from counter state `rid`, the id used for
the next request is `rid + 1`. -/
def send_request_id (rid : Nat) : Nat × Nat :=
  (rid + 1, rid + 1)

/-- The sequence of correlation ids produced by `n` consecutive
`_send_request` calls starting from the initial counter `0` set in
`BlenderMCPClient.__init__`. -/
def requestIds (n : Nat) : List Nat :=
  (List.range n).map (fun i => i + 1)

/-- One line read from the child's stdout, after the `json.loads` attempt:
`none` models a line whose parse raises `json.JSONDecodeError`. -/
abbrev WireLine := Option JVal

/-- `BlenderMCPClient._waiting_response` (`src/main.py` lines 77-87): read
lines until one parses to a message whose `id` equals the current
`self.request_id`; `json.JSONDecodeError` is caught and the loop
continues; any other exception (for example the TypeError from `"id" in 5`)
propagates; end of stream raises `RuntimeError("Server closed
connection")`. -/
def waiting_response (rid : Nat) : List WireLine → Except PyErr JVal
  | [] => Except.error PyErr.runtimeError
  | line :: rest =>
    match line with
    | none => waiting_response rid rest
    | some msg =>
      match pyContains "id" msg with
      | Except.error e => Except.error e
      | Except.ok false => waiting_response rid rest
      | Except.ok true =>
        match pyIndex "id" msg with
        | Except.error e => Except.error e
        | Except.ok v =>
          if pyEqInt v (Int.ofNat rid) then Except.ok msg
          else waiting_response rid rest

/-- Python `str(...)` of a JSON value, as interpolated by
`f"Error: {resp['error']['message']}"` in `call_tool`. -/
def pyStr : JVal → String
  | JVal.str s => s
  | JVal.num n => toString n
  | JVal.bool b => if b then "True" else "False"
  | JVal.null => "None"
  | JVal.obj _ => "{...}"
  | JVal.arr _ => "[...]"

/-- The comprehension `[c["text"] for c in content if c["type"] == "text"]`
from `call_tool`: each block is indexed by "type" (raising KeyError for a
dict without that key and TypeError for a non-dict) and, when text-typed,
by "text". -/
def textBlockVals : List JVal → Except PyErr (List JVal)
  | [] => Except.ok []
  | c :: rest =>
    match pyIndex "type" c with
    | Except.error e => Except.error e
    | Except.ok tv =>
      if (match tv with
          | JVal.str s => s = "text"
          | _ => false : Bool) then
        match pyIndex "text" c with
        | Except.error e => Except.error e
        | Except.ok xv =>
          match textBlockVals rest with
          | Except.error e => Except.error e
          | Except.ok xs => Except.ok (xv :: xs)
      else textBlockVals rest

/-- Python `"\n".join(xs)`: raises TypeError unless every element is a
string. -/
def strsOf : List JVal → Except PyErr (List String)
  | [] => Except.ok []
  | JVal.str s :: rest =>
    match strsOf rest with
    | Except.error e => Except.error e
    | Except.ok ss => Except.ok (s :: ss)
  | _ :: _ => Except.error PyErr.typeError

/-- Python `"\n".join(xs)` over a list of JSON values. -/
def joinStrs (xs : List JVal) : Except PyErr String :=
  match strsOf xs with
  | Except.error e => Except.error e
  | Except.ok ss => Except.ok (String.intercalate "\n" ss)

/-- The result-parsing tail of `BlenderMCPClient.call_tool` (`src/main.py`
lines 96-102), applied to the matched response object's fields: an `error`
member short-circuits to an error string; otherwise
`resp.get("result", {}).get("content", [])` is flattened to the text-typed
content blocks joined by newlines. A non-dict `result` member raises
AttributeError (`.get` on a non-dict); iterating a non-list `content`
raises a TypeError in the comprehension, which this embedding folds into
`PyErr.typeError`. -/
def call_tool_parse (fields : List (String × JVal)) : Except PyErr String :=
  match objLookup fields "error" with
  | some errVal =>
    match pyIndex "message" errVal with
    | Except.error e => Except.error e
    | Except.ok mv => Except.ok ("Error: " ++ pyStr mv)
  | none =>
    match (objLookup fields "result").getD (JVal.obj []) with
    | JVal.obj rfields =>
      match (objLookup rfields "content").getD (JVal.arr []) with
      | JVal.arr blocks =>
        match textBlockVals blocks with
        | Except.error e => Except.error e
        | Except.ok xs => joinStrs xs
      | _ => Except.error PyErr.typeError
    | _ => Except.error PyErr.attributeError

/-! The per-turn tool loop of `main` (`src/main.py` lines 295-340), the
interactive read-eval loop (lines 227-343), the retrieval aggregation
(lines 249-258) and the `GenerationLogger` (lines 180-210). -/

/-- The loop ceiling `MAX_LOOPS = 10` from `src/main.py` line 297. -/
def MAX_LOOPS : Nat := 10

/-- Observable steps of one turn's tool loop: a tool invocation (with the
result string that came back, error text included), and the feeding of that
result to the model via `send_tool_result`. -/
inductive LoopEvent where
  | invoked (name : String) (result : String)
  | fed (name : String) (result : String)
deriving DecidableEq, Repr

/-- Python dict lookup in `fargs` (function-call arguments have unique
keys; last-wins like `objLookup` for safety). -/
def argLookup (args : List (String × String)) (key : String) : Option String :=
  (args.filter (fun kv => kv.1 = key)).getLast?.map (fun kv => kv.2)

/-- `if fname == "create_procedural_material" and "name" in fargs:
logger.set_material_name(fargs["name"])` (`src/main.py` lines 306-307);
`set_material_name` overwrites `self.material_name` unconditionally. -/
def setMatNameStep (cur : Option String) (c : FCall) : Option String :=
  if c.fname = "create_procedural_material" then
    match argLookup c.fargs "name" with
    | some v => some v
    | none => cur
  else cur

/-- `tool_result` after the guarded `client.call_tool` call (`src/main.py`
lines 314-318): the tool's string on success, or the formatted
`f"Error executing tool: {e}"` when the invocation raised. -/
def toolResultOf (tool : FCall → Except String String) (c : FCall) : String :=
  match tool c with
  | Except.ok s => s
  | Except.error e => "Error executing tool: " ++ e

/-- The final state of one turn's tool loop. -/
structure LoopResult where
  count : Nat
  events : List LoopEvent
  calls : List FCall
  matName : Option String
  raised : Bool
  warned : Bool
deriving Repr

/-- The tool loop of `main` (`src/main.py` lines 295-340).
`tool` is `client.call_tool` (an `Except.error` is a raised exception,
converted to an error-text result by the `try`/`except` around it); `feed`
is `llm.send_tool_result` at a given iteration number (an `Except.error`
is a raised exception, which the loop logs and re-raises, aborting the
turn). The loop runs while a call is pending and `loop_count < MAX_LOOPS`;
the structural argument `fuel` stands for `MAX_LOOPS - loop_count`, so the
guard `fuel = 0` is the source's `loop_count < MAX_LOOPS` turning false.
Each iteration increments the counter, records the material name, invokes
exactly one tool, and feeds the result back. On every normal exit the
trailing `if loop_count >= MAX_LOOPS` warning check runs; when the feed
re-raises, the turn aborts and neither the warning check nor
`logger.save()` is reached. -/
def agent_loop (tool : FCall → Except String String)
    (feed : Nat → FCall → String → Except Unit (String × Option FCall)) :
    Nat → Option FCall → Nat → List LoopEvent → List FCall → Option String → LoopResult
  | _, none, count, events, calls, mat =>
    ⟨count, events, calls, mat, false, decide (count ≥ MAX_LOOPS)⟩
  | 0, some _, count, events, calls, mat =>
    ⟨count, events, calls, mat, false, decide (count ≥ MAX_LOOPS)⟩
  | fuel + 1, some c, count, events, calls, mat =>
    let count1 := count + 1
    let mat1 := setMatNameStep mat c
    let result := toolResultOf tool c
    let events1 := events ++ [LoopEvent.invoked c.fname result]
    match feed count1 c result with
    | Except.error _ => ⟨count1, events1, calls ++ [c], mat1, true, false⟩
    | Except.ok (_, fc2) =>
      agent_loop tool feed fuel fc2 count1
        (events1 ++ [LoopEvent.fed c.fname result]) (calls ++ [c]) mat1

/-- A turn's tool loop as entered from `main`: counter `0` (so fuel
`MAX_LOOPS`), no events, no material name yet, starting from the initial
`func_call` returned by `send_message`. -/
def run_turn_loop (tool : FCall → Except String String)
    (feed : Nat → FCall → String → Except Unit (String × Option FCall))
    (fc0 : Option FCall) : LoopResult :=
  agent_loop tool feed MAX_LOOPS fc0 0 [] [] none

/-- Number of tool invocations recorded in a trace. -/
def numInvoked (events : List LoopEvent) : Nat :=
  (events.filter (fun e => match e with
    | LoopEvent.invoked _ _ => true
    | _ => false)).length

/-- A trace in which every tool invocation is immediately followed by the
feeding of its result back to the model. -/
inductive PairedTrace : List LoopEvent → Prop where
  | nil : PairedTrace []
  | pair (n r : String) (rest : List LoopEvent) :
      PairedTrace rest →
      PairedTrace (LoopEvent.invoked n r :: LoopEvent.fed n r :: rest)

/-! The interactive read-eval loop of `main` and the planning step. -/

/-- Modelled from the source of `src/agent/llm.py`: the `LLMClient` class
defines only `__init__`, `_sanitize_schema`, `send_message` and
`send_tool_result`; `main` (`src/main.py` line 246) nevertheless calls
`llm.generate_plan(user_input)`, so the attribute lookup fails and the
call raises `AttributeError`. -/
def generate_plan (_input : String) : Except PyErr (List String) :=
  Except.error PyErr.attributeError

/-- How the read-eval session of `main` ended. -/
inductive ReplEnd where
  | quitCmd
  | inputsExhausted
  | crashed (e : PyErr)
deriving DecidableEq, Repr

/-- A finished session: which user inputs were read, and how it ended. -/
structure ReplRun where
  consumed : List String
  ended : ReplEnd
deriving DecidableEq, Repr

/-- One turn of `main` (`src/main.py` lines 243-343) up to its fault
behavior: the `try` block first calls `llm.generate_plan`; on an exception
the handler logs the error and executes `raise e`, so the turn's exception
propagates; otherwise the rest of the turn (`rest`: retrieval, prompting,
the tool loop) runs inside the same `try`. -/
def run_turn (planner : String → Except PyErr (List String))
    (rest : List String → Except PyErr Unit) (input : String) :
    Except PyErr Unit :=
  match planner input with
  | Except.error e => Except.error e
  | Except.ok plan => rest plan

/-- The `while True` read-eval loop of `main` (`src/main.py` lines
227-343): read an input; `quit`/`exit` (case-insensitive) breaks; otherwise
run one turn. A turn exception propagates out of the `while` loop to the
handler at line 345, which prints the error and falls through to
`client.close()` — the session is over and no further input is read. -/
def run_repl (planner : String → Except PyErr (List String))
    (rest : List String → Except PyErr Unit) : List String → ReplRun
  | [] => ⟨[], ReplEnd.inputsExhausted⟩
  | i :: is =>
    if i.toLower = "quit" ∨ i.toLower = "exit" then ⟨[i], ReplEnd.quitCmd⟩
    else
      match run_turn planner rest i with
      | Except.error e => ⟨[i], ReplEnd.crashed e⟩
      | Except.ok _ =>
        let r := run_repl planner rest is
        ⟨i :: r.consumed, r.ended⟩

/-! Retrieval aggregation (`src/main.py` lines 249-258). -/

/-- The members accumulated in `aggregated_context` by
`for task in plan: chunk = rag.query(task, 2); if chunk:
aggregated_context.add(chunk)` — recorded in first-seen order purely as a
canonical listing of the set's members; a Python `set` itself does not
remember insertion order. -/
def rag_aggregate (query : String → String) (plan : List String) : List String :=
  plan.foldl (fun acc task =>
    let chunk := query task
    if chunk ≠ "" ∧ chunk ∉ acc then acc ++ [chunk] else acc) []

/-- `list(aggregated_context)`: some enumeration of the set's members,
each exactly once, in an order the language does not specify. -/
def IsSetListing (members out : List String) : Prop :=
  out.Nodup ∧ ∀ x, x ∈ out ↔ x ∈ members

/-- `final_context = "\n---\n".join(list(aggregated_context))`: the
contexts reachable at `src/main.py` line 258 for a given query function and
plan. -/
def FinalContext (query : String → String) (plan : List String)
    (ctx : String) : Prop :=
  ∃ out, IsSetListing (rag_aggregate query plan) out ∧
    ctx = String.intercalate "\n---\n" out

/-! `GenerationLogger` naming (`src/main.py` lines 192-210). -/

/-- `"".join([c if c.isalnum() else "_" for c in self.material_name])`
(ASCII alphanumerics, the only ones the tool names at stake contain). -/
def sanitizeName (s : String) : String :=
  String.mk (s.toList.map (fun c => if c.isAlphanum then c else '_'))

/-- The filename chosen by `GenerationLogger.save`: derived from the
material name when one was set during the turn, otherwise from the
timestamp. -/
def log_filename (matName : Option String) (timestamp : String) : String :=
  match matName with
  | some name => "output/" ++ sanitizeName name ++ "_Log.md"
  | none => "output/Generation_Log_" ++ timestamp ++ ".md"

/-! Theorems. Shared helper lemmas come first, then one theorem (plus
witness or counterexample where applicable) per claim. -/

theorem toLower_length (s : String) : s.toLower.length = s.length := by
  rw [String.toLower, String.map_eq, String.length_mk, List.length_map,
    String.length_data]

theorem toLower_ne (s t : String) (h : ¬ s.length = t.length) : ¬ s.toLower = t := by
  intro he
  apply h
  rw [← toLower_length s, he]

theorem getLast?_cons_or {α : Type} (c : α) (l : List α) :
    (c :: l).getLast? = l.getLast?.or (some c) := by
  cases l with
  | nil => rfl
  | cons x xs =>
    rw [List.getLast?_cons_cons]
    cases h : (x :: xs).getLast? with
    | none => exact absurd h (by simp)
    | some v => simp [Option.or]

theorem scanForCall_foldl (parts : List GPart) :
    ∀ acc : Option FCall,
      parts.foldl (fun acc p => match p.functionCallOf with
        | some c => some c
        | none => acc) acc =
      ((parts.filterMap GPart.functionCallOf).getLast?).or acc := by
  induction parts with
  | nil => intro acc; simp [Option.or]
  | cons p rest ih =>
    intro acc
    cases hp : p.functionCallOf with
    | some c =>
      rw [List.foldl_cons, List.filterMap_cons_some hp, getLast?_cons_or, hp, ih]
      cases h : (rest.filterMap GPart.functionCallOf).getLast? <;> simp [Option.or]
    | none =>
      rw [List.foldl_cons, List.filterMap_cons_none hp, hp, ih]

theorem scanForCall_eq_getLast (parts : List GPart) :
    scanForCall parts = (parts.filterMap GPart.functionCallOf).getLast? := by
  rw [scanForCall, scanForCall_foldl]
  cases (parts.filterMap GPart.functionCallOf).getLast? <;> simp [Option.or]

/-- C1: the claim says `send_tool_result` returns a normalized
`(text, call)` pair of the same shape as `send_message` for every provider,
so the tuple unpacking at `src/main.py` line 329 always succeeds. The code
disagrees: on a gemini tool-result response consisting of the single text
part "done", `send_tool_result` returns the bare string "done" (the
computed `fc` is discarded), and on openai it returns `msg.content`;
unpacking the 4-character string "done" into two names raises ValueError,
while `send_message` on the same response does return a pair. -/
theorem C1_send_tool_result_not_pair_shaped :
    send_tool_result_gemini ⟨Except.ok [GPart.textPart "done"], Except.ok "done"⟩ =
      Except.ok (RetVal.strVal "done") ∧
    unpack2Ok (RetVal.strVal "done") = false ∧
    send_tool_result_openai ⟨some "done", []⟩ = RetVal.strVal "done" ∧
    send_message_gemini ⟨Except.ok [GPart.textPart "done"], Except.ok "done"⟩ =
      RetVal.pair "done" none ∧
    unpack2Ok (RetVal.pair "done" none) = true := by
  exact ⟨rfl, by decide, rfl, rfl, rfl⟩

/-- C2: the claim says a planning failure aborts only the current turn and
the read-eval loop goes on to the next input. In the code the `except`
handler re-raises (`raise e`, `src/main.py` line 287), the exception
escapes the `while True` loop to the handler at line 345, and the session
ends: with two queued inputs and the planner raising (as it always does,
since `LLMClient` has no `generate_plan` attribute), only the first input
is ever read, whatever the rest of the turn would have done. -/
theorem C2_planning_failure_kills_repl (rest : List String → Except PyErr Unit) :
    run_repl generate_plan rest ["make a gold material", "make a silver material"] =
      ⟨["make a gold material"], ReplEnd.crashed PyErr.attributeError⟩ ∧
    generate_plan "make a gold material" = Except.error PyErr.attributeError := by
  refine ⟨?_, rfl⟩
  simp only [run_repl, run_turn, generate_plan]
  rw [if_neg]
  rintro (h | h)
  · exact toLower_ne _ _ (by decide) h
  · exact toLower_ne _ _ (by decide) h

/-- C9: the claim says every exception raised while extracting text or
call information inside `send_message` or `send_tool_result` is swallowed
and the caller receives a well-formed pair. In the gemini branch of
`send_tool_result`, when both `response.parts` and the fallback
`response.text` raise, the local `text_response` is never assigned and the
trailing `return text_response` raises UnboundLocalError — the exception
escapes to the orchestration loop. `send_message` on the same doubly
failing response swallows it as the claim describes. -/
theorem C9_double_extraction_failure_raises :
    send_tool_result_gemini ⟨Except.error (), Except.error ()⟩ =
      Except.error PyErr.unboundLocal ∧
    send_message_gemini ⟨Except.error (), Except.error ()⟩ = RetVal.pair "" none := by
  exact ⟨rfl, rfl⟩

/-- C5: the claim says the surfaced call is the first one in the provider
response. On a gemini response whose parts are the function calls "A" then
"B" (in that order), the gateway surfaces "B": the scan loop overwrites
`fc` on every function-call part, keeping the last. -/
theorem C5_counterexample_last_call_surfaced :
    send_message_gemini
        ⟨Except.ok [GPart.functionCall "A" [], GPart.functionCall "B" []],
         Except.ok ""⟩ =
      RetVal.pair "" (some ⟨"B", [], none⟩) ∧
    RetVal.pair "" (some ⟨"B", [], none⟩) ≠ RetVal.pair "" (some ⟨"A", [], none⟩) := by
  exact ⟨rfl, by decide⟩

/-- C5 amended: at most one structured call is surfaced per turn (the
`call` slot is a single option); the openai branch surfaces the first
element of `msg.tool_calls`, while the gemini branch surfaces the last
function-call part of the response. -/
theorem C5_one_call_surfaced :
    (∀ (resp : GeminiResponse) (parts : List GPart),
      resp.partsRes = Except.ok parts →
      ∃ t, send_message_gemini resp =
        RetVal.pair t ((parts.filterMap GPart.functionCallOf).getLast?)) ∧
    (∀ msg : OAMessage,
      ∃ t, send_message_openai msg =
        RetVal.pair t (msg.toolCalls.head?.map
          (fun c => ⟨c.oname, c.oargs, some c.oid⟩))) := by
  constructor
  · intro resp parts h
    obtain ⟨pr, tr⟩ := resp
    simp only at h
    subst h
    simp only [send_message_gemini, scanForCall_eq_getLast]
    cases hfc : (parts.filterMap GPart.functionCallOf).getLast? with
    | none =>
      cases tr with
      | ok t => exact ⟨t, rfl⟩
      | error e => exact ⟨"", rfl⟩
    | some c => exact ⟨textsOf parts, rfl⟩
  · intro msg
    obtain ⟨content, tcs⟩ := msg
    cases tcs with
    | nil => exact ⟨_, rfl⟩
    | cons t rest => exact ⟨_, rfl⟩

/-- C5 amended, witness: the gemini two-call response again; the surfaced
call is the last function-call part. -/
theorem C5_one_call_surfaced_witness :
    ∃ t, send_message_gemini
        ⟨Except.ok [GPart.functionCall "A" [], GPart.functionCall "B" []],
         Except.ok ""⟩ =
      RetVal.pair t
        (([GPart.functionCall "A" [], GPart.functionCall "B" []].filterMap
          GPart.functionCallOf).getLast?) :=
  C5_one_call_surfaced.1
    ⟨Except.ok [GPart.functionCall "A" [], GPart.functionCall "B" []],
     Except.ok ""⟩
    [GPart.functionCall "A" [], GPart.functionCall "B" []] rfl

/-- Lines that `_waiting_response` silently skips: malformed JSON, and
JSON objects that carry no Python-equal `id` member. -/
def SkipLine (rid : Nat) : WireLine → Prop
  | none => True
  | some (JVal.obj fields) =>
      ∀ v, objLookup fields "id" = some v → pyEqInt v (Int.ofNat rid) = false
  | some _ => False

theorem objLookup_isSome_of_any (fields : List (String × JVal)) (key : String)
    (h : fields.any (fun kv => kv.1 = key) = true) :
    ∃ v, objLookup fields key = some v := by
  have hne : fields.filter (fun kv => decide (kv.1 = key)) ≠ [] := by
    intro hnil
    rw [List.filter_eq_nil_iff] at hnil
    obtain ⟨kv, hmem, hkv⟩ := List.any_eq_true.mp h
    exact hnil kv hmem hkv
  rw [objLookup]
  cases hL : (fields.filter (fun kv => decide (kv.1 = key))).getLast? with
  | none => exact absurd (List.getLast?_eq_none_iff.mp hL) hne
  | some kv => exact ⟨kv.2, rfl⟩

/-- C4: the claim says every line that is malformed JSON or carries a
non-matching (or absent) id is silently skipped. A line that is valid JSON
but not an object — here the bare number `5` — instead raises: `"id" in 5`
is a TypeError, which only the `except json.JSONDecodeError` clause does
not catch, so it propagates instead of the loop skipping to the next line
(which holds the matching response). -/
theorem C4_counterexample_nonobject_line_raises :
    waiting_response 1 [some (JVal.num 5), some (JVal.obj [("id", JVal.num 1)])] =
      Except.error PyErr.typeError ∧
    waiting_response 1 [some (JVal.obj [("id", JVal.num 1)])] =
      Except.ok (JVal.obj [("id", JVal.num 1)]) := by
  exact ⟨rfl, rfl⟩

/-- C4 amended: every response `_waiting_response` hands to the caller is a
JSON object whose `id` member is Python-equal to the current request id;
malformed-JSON lines and object lines without a matching id are silently
skipped (valid-JSON non-object lines instead raise a TypeError, per the
counterexample); and request ids are strictly increasing, hence unique,
within the process lifetime. -/
theorem C4_matched_response_id (rid : Nat) (lines : List WireLine) (msg : JVal)
    (h : waiting_response rid lines = Except.ok msg) :
    (∃ fields, msg = JVal.obj fields ∧
      ∃ v, objLookup fields "id" = some v ∧ pyEqInt v (Int.ofNat rid) = true) ∧
    (∀ (line : WireLine) (rest : List WireLine), SkipLine rid line →
      waiting_response rid (line :: rest) = waiting_response rid rest) ∧
    (∀ n : Nat, List.Pairwise (· < ·) (requestIds n)) := by
  refine ⟨?_, ?_, ?_⟩
  · induction lines with
    | nil => simp [waiting_response] at h
    | cons line rest ih =>
      simp only [waiting_response] at h
      cases line with
      | none => exact ih h
      | some m =>
        cases m with
        | num n => simp [pyContains] at h
        | bool b => simp [pyContains] at h
        | null => simp [pyContains] at h
        | str s =>
          simp only [pyContains] at h
          cases hb : strContains s "id" with
          | false => rw [hb] at h; exact ih h
          | true => rw [hb] at h; simp [pyIndex] at h
        | arr elems =>
          simp only [pyContains] at h
          cases hb : elems.any (fun e =>
            match e with
            | JVal.str s => decide (s = "id")
            | _ => false) with
          | false => rw [hb] at h; exact ih h
          | true => rw [hb] at h; simp [pyIndex] at h
        | obj fields =>
          simp only [pyContains] at h
          cases hb : fields.any (fun kv => decide (kv.1 = "id")) with
          | false => rw [hb] at h; exact ih h
          | true =>
            rw [hb] at h
            simp only [pyIndex] at h
            cases hL : objLookup fields "id" with
            | none => rw [hL] at h; simp at h
            | some v =>
              rw [hL] at h
              dsimp only at h
              cases he : pyEqInt v (Int.ofNat rid) with
              | false =>
                rw [he] at h
                simp only [Bool.false_eq_true, if_false] at h
                exact ih h
              | true =>
                rw [he] at h
                simp only [if_true] at h
                simp only [Except.ok.injEq] at h
                subst h
                exact ⟨fields, rfl, v, hL, he⟩
  · intro line rest hskip
    cases line with
    | none => simp [waiting_response]
    | some m =>
      cases m with
      | num n => exact absurd hskip (by simp [SkipLine])
      | bool b => exact absurd hskip (by simp [SkipLine])
      | null => exact absurd hskip (by simp [SkipLine])
      | str s => exact absurd hskip (by simp [SkipLine])
      | arr elems => exact absurd hskip (by simp [SkipLine])
      | obj fields =>
        simp only [waiting_response, pyContains]
        cases hb : fields.any (fun kv => decide (kv.1 = "id")) with
        | false => rfl
        | true =>
          obtain ⟨v, hv⟩ := objLookup_isSome_of_any fields "id" (by simpa using hb)
          simp only [pyIndex, hv]
          rw [if_neg]
          intro habs
          rw [hskip v hv] at habs
          cases habs
  · intro n
    rw [requestIds]
    exact (List.pairwise_lt_range n).map _ (fun a b hab => Nat.succ_lt_succ hab)

/-- C4 amended, witness: the single-line stream holding the matching
response for request id 2. -/
theorem C4_matched_response_id_witness :
    ∃ fields, JVal.obj [("id", JVal.num 2)] = JVal.obj fields ∧
      ∃ v, objLookup fields "id" = some v ∧ pyEqInt v (Int.ofNat 2) = true :=
  (C4_matched_response_id 2 [some (JVal.obj [("id", JVal.num 2)])]
    (JVal.obj [("id", JVal.num 2)]) rfl).1

theorem textBlockVals_no_text (blocks : List JVal)
    (h : ∀ c ∈ blocks, ∃ cf, c = JVal.obj cf ∧
      ∃ tv, objLookup cf "type" = some tv ∧
        (match tv with
         | JVal.str s => decide (s = "text")
         | _ => false) = false) :
    textBlockVals blocks = Except.ok [] := by
  induction blocks with
  | nil => rfl
  | cons c rest ih =>
    obtain ⟨cf, rfl, tv, hl, hf⟩ := h c (by simp)
    rw [textBlockVals]
    simp only [pyIndex, hl]
    rw [if_neg]
    · exact ih (fun c hc => h c (by simp [hc]))
    · intro habs
      rw [habs] at hf
      cases hf

/-- C10: the claim says that for every response without an `error` member
and without text-typed content blocks, `call_tool` returns the empty
string and never raises. A content block that is an object without a
`type` member contains no text-typed block either, yet `c["type"]` raises
KeyError instead of the function returning the empty string. -/
theorem C10_counterexample_missing_type_key :
    call_tool_parse
        [("result", JVal.obj
          [("content", JVal.arr [JVal.obj [("note", JVal.str "x")]])])] =
      Except.error PyErr.keyError ∧
    Except.error PyErr.keyError ≠ (Except.ok "" : Except PyErr String) := by
  exact ⟨rfl, by simp⟩

/-- C10 amended: for every response without an `error` member whose
`result` member (when present) is an object, whose `content` member (when
present) is a list, and whose content blocks are all objects carrying a
`type` member, if no block is text-typed then `call_tool` returns the
empty string — a string, never `None` and never an exception. -/
theorem C10_no_text_blocks_empty_string
    (fields rfields : List (String × JVal)) (blocks : List JVal)
    (h1 : objLookup fields "error" = none)
    (h2 : (objLookup fields "result").getD (JVal.obj []) = JVal.obj rfields)
    (h3 : (objLookup rfields "content").getD (JVal.arr []) = JVal.arr blocks)
    (h4 : ∀ c ∈ blocks, ∃ cf, c = JVal.obj cf ∧
      ∃ tv, objLookup cf "type" = some tv ∧
        (match tv with
         | JVal.str s => decide (s = "text")
         | _ => false) = false) :
    call_tool_parse fields = Except.ok "" := by
  rw [call_tool_parse]
  rw [h1]
  dsimp only
  rw [h2]
  dsimp only
  rw [h3]
  dsimp only
  rw [textBlockVals_no_text blocks h4]
  rfl

/-- C10 amended, witness: a response whose single content block is
image-typed. -/
theorem C10_no_text_blocks_empty_string_witness :
    call_tool_parse
        [("result", JVal.obj
          [("content", JVal.arr [JVal.obj [("type", JVal.str "image")]])])] =
      Except.ok "" :=
  C10_no_text_blocks_empty_string
    [("result", JVal.obj
      [("content", JVal.arr [JVal.obj [("type", JVal.str "image")]])])]
    [("content", JVal.arr [JVal.obj [("type", JVal.str "image")]])]
    [JVal.obj [("type", JVal.str "image")]]
    rfl rfl rfl
    (by
      intro c hc
      simp only [List.mem_singleton] at hc
      subst hc
      exact ⟨[("type", JVal.str "image")], rfl, JVal.str "image", rfl, rfl⟩)

theorem rag_aggregate_mem_aux (query : String → String) (plan : List String) :
    ∀ (acc : List String) (x : String),
      (x ∈ plan.foldl (fun acc task =>
        let chunk := query task
        if chunk ≠ "" ∧ chunk ∉ acc then acc ++ [chunk] else acc) acc) ↔
      (x ∈ acc ∨ ((∃ task ∈ plan, query task = x) ∧ x ≠ "")) := by
  induction plan with
  | nil => intro acc x; simp
  | cons t rest ih =>
    intro acc x
    rw [List.foldl_cons, ih]
    by_cases hc : query t ≠ "" ∧ query t ∉ acc
    · simp only [if_pos hc, List.mem_append, List.mem_singleton,
        List.mem_cons, List.not_mem_nil, or_false]
      obtain ⟨hne, hnotin⟩ := hc
      constructor
      · rintro ((hx | hx) | ⟨⟨task, hmem, htask⟩, hxne⟩)
        · exact Or.inl hx
        · subst hx
          exact Or.inr ⟨⟨t, Or.inl rfl, rfl⟩, hne⟩
        · exact Or.inr ⟨⟨task, Or.inr hmem, htask⟩, hxne⟩
      · rintro (hx | ⟨⟨task, hmem, htask⟩, hxne⟩)
        · exact Or.inl (Or.inl hx)
        · cases hmem with
          | inl ht =>
            subst ht
            subst htask
            exact Or.inl (Or.inr rfl)
          | inr hr => exact Or.inr ⟨⟨task, hr, htask⟩, hxne⟩
    · simp only [if_neg hc, List.mem_cons, List.not_mem_nil, or_false]
      push_neg at hc
      constructor
      · rintro (hx | ⟨⟨task, hmem, htask⟩, hxne⟩)
        · exact Or.inl hx
        · exact Or.inr ⟨⟨task, Or.inr hmem, htask⟩, hxne⟩
      · rintro (hx | ⟨⟨task, hmem, htask⟩, hxne⟩)
        · exact Or.inl hx
        · cases hmem with
          | inl ht =>
            subst ht
            subst htask
            exact Or.inl (hc hxne)
          | inr hr => exact Or.inr ⟨⟨task, hr, htask⟩, hxne⟩

theorem rag_aggregate_mem (query : String → String) (plan : List String)
    (x : String) :
    x ∈ rag_aggregate query plan ↔
      (∃ task ∈ plan, query task = x) ∧ x ≠ "" := by
  rw [rag_aggregate, rag_aggregate_mem_aux]
  simp

/-- Query function for the C6 counterexample: the two subtasks retrieve two
different context blocks. -/
def qCtx : String → String := fun t => if t = "t1" then "ctxA" else "ctxB"

/-- C6: the claim says the deduplicated blocks are concatenated preserving
first-seen order across subtasks. The aggregate is a Python `set`, which
does not remember insertion order: `["ctxB", "ctxA"]` is a valid
`list(aggregated_context)` enumeration, and it yields a final context that
differs from the first-seen concatenation. -/
theorem C6_counterexample_order_not_first_seen :
    FinalContext qCtx ["t1", "t2"] ("ctxB" ++ "\n---\n" ++ "ctxA") ∧
    ("ctxB" ++ "\n---\n" ++ "ctxA") ≠ ("ctxA" ++ "\n---\n" ++ "ctxB") := by
  constructor
  · refine ⟨["ctxB", "ctxA"], ⟨?_, ?_⟩, ?_⟩
    · simp
    · intro x
      show x ∈ ["ctxB", "ctxA"] ↔ x ∈ ["ctxA", "ctxB"]
      simp only [List.mem_cons, List.not_mem_nil, or_false]
      exact or_comm
    · rfl
  · decide

/-- C6 amended: the aggregated context contains each structurally
identical nonempty block exactly once — a block is in the listing iff some
subtask's query returned it — but the concatenation order is the set's
iteration order, which the language leaves unspecified rather than
first-seen. -/
theorem C6_dedup_exactly_once (query : String → String) (plan : List String)
    (out : List String) (h : IsSetListing (rag_aggregate query plan) out) :
    (∀ task ∈ plan, query task ≠ "" → out.count (query task) = 1) ∧
    (∀ x, x ∈ out ↔ (∃ task ∈ plan, query task = x) ∧ x ≠ "") := by
  obtain ⟨hnd, hmem⟩ := h
  constructor
  · intro task htask hne
    apply List.count_eq_one_of_mem hnd
    rw [hmem, rag_aggregate_mem]
    exact ⟨⟨task, htask, rfl⟩, hne⟩
  · intro x
    rw [hmem, rag_aggregate_mem]

/-- C6 amended, witness: a one-subtask plan whose query returns "ctx";
the canonical listing itself is a valid enumeration. -/
theorem C6_dedup_exactly_once_witness :
    (∀ task ∈ ["t1"], (fun _ : String => "ctx") task ≠ "" →
      (["ctx"] : List String).count ((fun _ : String => "ctx") task) = 1) ∧
    (∀ x, x ∈ (["ctx"] : List String) ↔
      (∃ task ∈ ["t1"], (fun _ : String => "ctx") task = x) ∧ x ≠ "") :=
  C6_dedup_exactly_once (fun _ => "ctx") ["t1"] ["ctx"]
    ⟨by simp, fun x => Iff.rfl⟩

/-- A call that triggers `set_material_name`: a `create_procedural_material`
call whose arguments carry "name". -/
def isCreateWithName (c : FCall) : Bool :=
  c.fname == "create_procedural_material" && (argLookup c.fargs "name").isSome

/-- The material name retained at the end of a turn: the "name" argument of
the last `create_procedural_material` call processed. -/
def lastCreateName (calls : List FCall) : Option String :=
  (calls.reverse.find? isCreateWithName).bind (fun c => argLookup c.fargs "name")

theorem setMatNameStep_or (cur : Option String) (c : FCall) :
    setMatNameStep cur c = (lastCreateName [c]).or cur := by
  rw [setMatNameStep, lastCreateName]
  by_cases hf : c.fname = "create_procedural_material"
  · rw [if_pos hf]
    cases hL : argLookup c.fargs "name" with
    | none =>
      have : isCreateWithName c = false := by
        simp [isCreateWithName, hL]
      simp [this, Option.or]
    | some v =>
      have : isCreateWithName c = true := by
        simp [isCreateWithName, hL, hf]
      simp [this, hL, Option.or]
  · rw [if_neg hf]
    have : isCreateWithName c = false := by
      simp [isCreateWithName]
      intro habs
      exact absurd habs hf
    simp [this, Option.or]

theorem lastCreateName_cons (c : FCall) (rest : List FCall) :
    lastCreateName (c :: rest) = (lastCreateName rest).or (lastCreateName [c]) := by
  rw [lastCreateName, lastCreateName, lastCreateName]
  simp only [List.reverse_cons, List.find?_append]
  cases h1 : (rest.reverse.find? isCreateWithName) with
  | none => simp [Option.or]
  | some c0 =>
    have hp : isCreateWithName c0 = true := List.find?_some h1
    have : (argLookup c0.fargs "name").isSome := by
      simp [isCreateWithName] at hp
      exact hp.2
    obtain ⟨v, hv⟩ := Option.isSome_iff_exists.mp this
    simp [Option.or, hv]

theorem foldl_setMatNameStep (calls : List FCall) :
    ∀ cur, calls.foldl setMatNameStep cur = (lastCreateName calls).or cur := by
  induction calls with
  | nil => intro cur; simp [lastCreateName, Option.or]
  | cons c rest ih =>
    intro cur
    rw [List.foldl_cons, ih, setMatNameStep_or]
    conv_rhs => rw [lastCreateName_cons]
    cases h1 : lastCreateName rest <;>
      cases h2 : lastCreateName [c] <;> simp [Option.or, h1, h2]

theorem agent_loop_mat (tool : FCall → Except String String)
    (feed : Nat → FCall → String → Except Unit (String × Option FCall)) :
    ∀ (fuel : Nat) (fc : Option FCall) (count : Nat) (events : List LoopEvent)
      (calls : List FCall) (mat : Option String),
      ∃ newCalls,
        (agent_loop tool feed fuel fc count events calls mat).calls =
          calls ++ newCalls ∧
        (agent_loop tool feed fuel fc count events calls mat).matName =
          newCalls.foldl setMatNameStep mat := by
  intro fuel
  induction fuel with
  | zero =>
    intro fc count events calls mat
    cases fc with
    | none => exact ⟨[], by simp [agent_loop]⟩
    | some c => exact ⟨[], by simp [agent_loop]⟩
  | succ fuel ih =>
    intro fc count events calls mat
    cases fc with
    | none => exact ⟨[], by simp [agent_loop]⟩
    | some c =>
      rw [agent_loop]
      cases hfd : feed (count + 1) c (toolResultOf tool c) with
      | error e => exact ⟨[c], by simp⟩
      | ok p =>
        obtain ⟨txt, fc2⟩ := p
        obtain ⟨nc, hcalls, hmat⟩ := ih fc2 (count + 1)
          (events ++ [LoopEvent.invoked c.fname (toolResultOf tool c)] ++
            [LoopEvent.fed c.fname (toolResultOf tool c)])
          (calls ++ [c]) (setMatNameStep mat c)
        refine ⟨c :: nc, ?_, ?_⟩
        · simpa [List.append_assoc] using hcalls
        · simpa using hmat

/-- Tool stub for the C8 counterexample: every call succeeds. -/
def c8tool : FCall → Except String String := fun _ => Except.ok "ok"

/-- Model stub for the C8 counterexample: after the first tool result the
model asks for a second `create_procedural_material` named "B", then
stops. -/
def c8feed : Nat → FCall → String → Except Unit (String × Option FCall) :=
  fun k _ _ =>
    if k = 1 then
      Except.ok ("", some ⟨"create_procedural_material", [("name", "B")], none⟩)
    else Except.ok ("", none)

/-- C8: the claim says the first `create_procedural_material` name observed
becomes the turn's naming key and later calls do not change it. In the
code, the capture at `src/main.py` lines 306-307 runs on every iteration
and `set_material_name` overwrites: a turn that creates "A" and then "B"
ends with naming key "B", and the log file is named from "B", not from the
first-named artifact "A". -/
theorem C8_counterexample_second_create_renames :
    (run_turn_loop c8tool c8feed
      (some ⟨"create_procedural_material", [("name", "A")], none⟩)).matName =
      some "B" ∧
    (some "B" : Option String) ≠ some "A" ∧
    log_filename (some "B") "20240101_000000" = "output/B_Log.md" := by
  exact ⟨rfl, by decide, rfl⟩

/-- C8 amended: the naming key retained at the end of a turn is the "name"
argument of the LAST `create_procedural_material` call processed during
the turn (each such call overwrites the previous key), and the persisted
log filename derives from that last-named artifact. -/
theorem C8_material_name_last_write_wins
    (tool : FCall → Except String String)
    (feed : Nat → FCall → String → Except Unit (String × Option FCall))
    (fc0 : Option FCall) :
    (run_turn_loop tool feed fc0).matName =
      lastCreateName (run_turn_loop tool feed fc0).calls ∧
    ∀ name ts, log_filename (some name) ts =
      "output/" ++ sanitizeName name ++ "_Log.md" := by
  constructor
  · obtain ⟨nc, hcalls, hmat⟩ :=
      agent_loop_mat tool feed MAX_LOOPS fc0 0 [] [] none
    rw [run_turn_loop, hmat, foldl_setMatNameStep, hcalls]
    simp only [List.nil_append]
    cases lastCreateName nc <;> simp [Option.or]
  · intro name ts
    rfl

theorem numInvoked_append (a b : List LoopEvent) :
    numInvoked (a ++ b) = numInvoked a + numInvoked b := by
  simp [numInvoked, List.filter_append]

theorem numInvoked_invoked (n r : String) :
    numInvoked [LoopEvent.invoked n r] = 1 := rfl

theorem numInvoked_fed (n r : String) :
    numInvoked [LoopEvent.fed n r] = 0 := rfl

theorem pairedTrace_append (es : List LoopEvent) (n r : String)
    (h : PairedTrace es) :
    PairedTrace (es ++ [LoopEvent.invoked n r, LoopEvent.fed n r]) := by
  induction h with
  | nil => exact PairedTrace.pair n r [] PairedTrace.nil
  | pair n0 r0 rest hrest ih => exact PairedTrace.pair n0 r0 _ ih

theorem agent_loop_invariant (tool : FCall → Except String String)
    (feed : Nat → FCall → String → Except Unit (String × Option FCall)) :
    ∀ (fuel : Nat) (fc : Option FCall) (count : Nat) (events : List LoopEvent)
      (calls : List FCall) (mat : Option String),
      numInvoked events = count →
      PairedTrace events →
      (numInvoked (agent_loop tool feed fuel fc count events calls mat).events =
        (agent_loop tool feed fuel fc count events calls mat).count) ∧
      ((agent_loop tool feed fuel fc count events calls mat).count ≤ count + fuel) ∧
      ((agent_loop tool feed fuel fc count events calls mat).raised = true ∨
        PairedTrace (agent_loop tool feed fuel fc count events calls mat).events) := by
  intro fuel
  induction fuel with
  | zero =>
    intro fc count events calls mat hn hp
    cases fc with
    | none => exact ⟨hn, Nat.le_refl _, Or.inr hp⟩
    | some c => exact ⟨hn, Nat.le_refl _, Or.inr hp⟩
  | succ fuel ih =>
    intro fc count events calls mat hn hp
    cases fc with
    | none => exact ⟨hn, Nat.le_add_right _ _, Or.inr hp⟩
    | some c =>
      rw [agent_loop]
      cases hfd : feed (count + 1) c (toolResultOf tool c) with
      | error e =>
        dsimp only
        refine ⟨?_, ?_, Or.inl rfl⟩
        · rw [numInvoked_append, hn, numInvoked_invoked]
        · omega
      | ok p =>
        obtain ⟨txt, fc2⟩ := p
        dsimp only
        have hn2 : numInvoked (events ++
            [LoopEvent.invoked c.fname (toolResultOf tool c)] ++
            [LoopEvent.fed c.fname (toolResultOf tool c)]) = count + 1 := by
          rw [numInvoked_append, numInvoked_append, hn, numInvoked_invoked,
            numInvoked_fed]
        have hp2 : PairedTrace (events ++
            [LoopEvent.invoked c.fname (toolResultOf tool c)] ++
            [LoopEvent.fed c.fname (toolResultOf tool c)]) := by
          rw [List.append_assoc]
          exact pairedTrace_append events _ _ hp
        obtain ⟨h1, h2, h3⟩ := ih fc2 (count + 1) _ (calls ++ [c])
          (setMatNameStep mat c) hn2 hp2
        refine ⟨h1, ?_, h3⟩
        omega

/-- C3: for every tool behavior and every model strategy (however many
structured calls it keeps returning), the turn loop performs exactly one
tool invocation per iteration (the invocation count equals the loop
counter), performs at most `MAX_LOOPS = 10` invocations per user turn, and
unless the feed itself raised (aborting the turn abnormally), the trace
pairs every invocation with the feeding of its result — success or error
text — back to the model before the loop continues or terminates
normally. -/
theorem C3_loop_bounded_and_paired (tool : FCall → Except String String)
    (feed : Nat → FCall → String → Except Unit (String × Option FCall))
    (fc0 : Option FCall) :
    numInvoked (run_turn_loop tool feed fc0).events =
      (run_turn_loop tool feed fc0).count ∧
    numInvoked (run_turn_loop tool feed fc0).events ≤ MAX_LOOPS ∧
    ((run_turn_loop tool feed fc0).raised = true ∨
      PairedTrace (run_turn_loop tool feed fc0).events) := by
  obtain ⟨h1, h2, h3⟩ :=
    agent_loop_invariant tool feed MAX_LOOPS fc0 0 [] [] none rfl PairedTrace.nil
  rw [run_turn_loop]
  refine ⟨h1, ?_, h3⟩
  rw [h1]
  simpa using h2

/-- C7: `_sanitize_schema` is idempotent — lowering the type-casing of a
schema twice yields exactly the same value as lowering it once. -/
theorem C7_sanitize_schema_idempotent (schema : SchemaVal) :
    sanitize_schema (sanitize_schema schema) = sanitize_schema schema :=
  (sanitize_idem_aux (sizeOf schema)).1 schema (Nat.le_refl _)

end PyBlender
